import Mathlib

/-!
Shallow embedding of `judge/utils/problems.py` from the online-judge
repository, together with theorems settling the specification claims
about it.

Modelling conventions:
* Database rows (`Problem`, `Submission`) are Lean structures; the
  database is a pair of lists.  Field names follow the source models.
* Submission verdicts form the fixed ten-code enumeration the source
  uses (`AC, WA, CE, TLE, MLE, OLE, IR, RTE, AB, IE`).
* Points, acceptance rates and float arithmetic are modelled with `ℚ`
  (exact), except the hotness score which needs `Real.exp` and lives
  in `ℝ`.
* Timestamps are integers; `timezone.now()` and the trailing duration
  are explicit parameters.
* The per-key cache get/set of the source is modelled explicitly only
  where a claim depends on it (`hot_problems`); the other functions are
  embedded as their cache-miss computation, which is what the claims
  describe.
-/

namespace OnlineJudge

/-- The ten submission verdict codes of the judge. -/
inductive SubResult
  | AC | WA | CE | TLE | MLE | OLE | IR | RTE | AB | IE
deriving DecidableEq, Repr

/-- A row of the `Problem` model: integer id, unique code, display name,
points value, acceptance rate and public-visibility flag. -/
structure Problem where
  id : Nat
  code : String
  name : String
  points : ℚ
  ac_rate : ℚ
  is_public : Bool
deriving DecidableEq, Repr

/-- A row of the `Submission` model: integer id, submitting profile id,
problem id (foreign key), verdict, achieved points and creation date. -/
structure Submission where
  id : Nat
  user : Nat
  problem : Nat
  result : SubResult
  points : ℚ
  date : Int
deriving DecidableEq, Repr

/-- The visible database state: the `Problem` and `Submission` tables. -/
structure DB where
  problems : List Problem
  submissions : List Submission
deriving DecidableEq, Repr

/-- Foreign-key resolution `submission.problem → Problem` (the ORM join
`problem__...`): the first problem row with the given id. -/
def DB.findProblem (db : DB) (pid : Nat) : Option Problem :=
  db.problems.find? (fun p => p.id == pid)

/-- Function `user_completed_ids` (cache-miss computation): distinct problem ids of
submissions by `profile` with `result="AC"` and `points=F("problem__points")`. -/
def user_completed_ids (db : DB) (profile : Nat) : List Nat :=
  ((db.submissions.filter (fun s =>
      s.user == profile && s.result == SubResult.AC &&
        (match db.findProblem s.problem with
          | some p => s.points == p.points
          | none => false))).map (fun s => s.problem)).dedup

/-- Maximum of a list of rationals, `none` on the empty list (the SQL
`Max` aggregate over a group). -/
def maxPoints : List ℚ → Option ℚ
  | [] => none
  | x :: xs =>
    some (match maxPoints xs with
      | none => x
      | some m => max x m)

/-- The per-problem record produced by `user_attempted_ids`. -/
structure AttemptRecord where
  achieved_points : ℚ
  max_points : ℚ
  last_submission : Nat
  code : String
  name : String
deriving DecidableEq, Repr

/-- Maximum of a list of naturals, `none` on the empty list (the SQL
`Max("id")` aggregate). -/
def maxId : List Nat → Option Nat
  | [] => none
  | x :: xs =>
    some (match maxId xs with
      | none => x
      | some m => max x m)

/-- Function `user_attempted_ids` (cache-miss computation): group the profile's
submissions by problem, aggregate `Max("points")` and `Max("id")`, and
keep the groups whose best points are strictly below the problem's
points.  Returned as an association list from problem id to record. -/
def user_attempted_ids (db : DB) (profile : Nat) : List (Nat × AttemptRecord) :=
  let subs := db.submissions.filter (fun s => s.user == profile)
  ((subs.map (fun s => s.problem)).dedup).filterMap (fun pid =>
    match db.findProblem pid with
    | none => none
    | some p =>
      let group := subs.filter (fun s => s.problem == pid)
      match maxPoints (group.map (fun s => s.points)), maxId (group.map (fun s => s.id)) with
      | some m, some last =>
        if m < p.points then
          some (pid, ⟨m, p.points, last, p.code, p.name⟩)
        else none
      | _, _ => none)

/-- Keyword equality filters accepted by `get_result_data(**kwargs)`,
matching the fields of `Submission` they constrain. -/
inductive SubFilter
  | user (id : Nat)
  | problem (id : Nat)
  | result (r : SubResult)
deriving DecidableEq, Repr

/-- Whether a submission satisfies one keyword filter. -/
def SubFilter.sat : SubFilter → Submission → Bool
  | .user i, s => s.user == i
  | .problem i, s => s.problem == i
  | .result r, s => s.result == r

/-- One `{code, name, count}` record of the result histogram. -/
structure ResultCategory where
  code : String
  name : String
  count : Nat
deriving DecidableEq, Repr

/-- The value returned by `get_result_data`: the ordered category list
plus the total. -/
structure ResultData where
  categories : List ResultCategory
  total : Nat
deriving DecidableEq, Repr

/-- All ten verdict codes, the possible keys of the raw count dictionary. -/
def allResults : List SubResult :=
  [.AC, .WA, .CE, .TLE, .MLE, .OLE, .IR, .RTE, .AB, .IE]

/-- Helper `_get_result_data(results)`: fold the per-verdict counts into the five
categories; `total` is `sum(results.values())`, i.e. the sum of the counts
of every verdict code (`defaultdict` keys absent from the data count 0). -/
def _get_result_data (results : SubResult → Nat) : ResultData :=
  { categories :=
      [ ⟨"AC", "Accepted", results .AC⟩,
        ⟨"WA", "Wrong", results .WA⟩,
        ⟨"CE", "Compile Error", results .CE⟩,
        ⟨"TLE", "Timeout", results .TLE⟩,
        ⟨"ERR", "Error",
          results .MLE + results .OLE + results .IR +
            results .RTE + results .AB + results .IE⟩ ],
    total := (allResults.map results).sum }

/-- The raw grouped count `submissions.values("result").annotate(count=Count("result"))`
read back through the `defaultdict`: the number of submissions with each verdict. -/
def resultCount (subs : List Submission) (r : SubResult) : Nat :=
  subs.countP (fun s => s.result == r)

/-- The test `kwargs is not None` from the source: `kwargs` is a Python
dict, never `None`, so this is constantly true whatever the filters are. -/
def kwargs_is_not_none (_kwargs : List SubFilter) : Bool := true

/-- Function `get_result_data(*args, **kwargs)`: a positional pre-filtered
collection (`args`) is mutually exclusive with keyword filters
(`kwargs`); with neither, the filter branch is taken with an empty
filter set and the histogram covers the whole `Submission` table. -/
def get_result_data (db : DB) (args : Option (List Submission))
    (kwargs : List SubFilter) : Except String ResultData :=
  match args with
  | some submissions =>
    if kwargs.isEmpty then
      .ok (_get_result_data (resultCount submissions))
    else
      .error ("Cannot pass both queryset and keyword filters")
  | none =>
    let submissions :=
      if kwargs_is_not_none kwargs then
        db.submissions.filter (fun s => kwargs.all (fun k => k.sat s))
      else
        db.submissions
    .ok (_get_result_data (resultCount submissions))

/-! ### `hot_problems` -/

/-- The submissions of problem `pid` inside the trailing window: the join
filter `submission__date__gt=timezone.now() - duration`. -/
def windowSubmissions (db : DB) (now duration : Int) (pid : Nat) : List Submission :=
  db.submissions.filter (fun s => s.problem == pid && decide (now - duration < s.date))

/-- The aggregate `Count("submission__user", distinct=True)` over the window join:
the number of distinct submitting users. -/
def uniqueUsers (subs : List Submission) : Nat :=
  ((subs.map (fun s => s.user)).dedup).length

/-- The `Case`/`When` volume count: submissions whose result is one of
`AC, WA, IR, RTE, TLE, OLE` produce `1`, every other verdict produces
SQL `NULL`, which `Count` skips. -/
def caseSubmissionVolume (subs : List Submission) : Nat :=
  subs.countP (fun s =>
    match s.result with
    | .AC => true
    | .WA => true
    | .IR => true
    | .RTE => true
    | .TLE => true
    | .OLE => true
    | _ => false)

/-- The `Case`/`When` count of accepted submissions. -/
def caseAcVolume (subs : List Submission) : Nat :=
  subs.countP (fun s =>
    match s.result with
    | .AC => true
    | _ => false)

/-- The queryset `Problem.get_public_problems().filter(submission__date__gt=...)`:
public problems with at least one submission inside the window. -/
def hotCandidates (db : DB) (now duration : Int) : List Problem :=
  db.problems.filter (fun p =>
    p.is_public && !(windowSubmissions db now duration p.id).isEmpty)

/-- The value `mx = float(qs0[0])`: the head of the distinct-submitter counts in
descending order, i.e. their maximum, as a (modelled) float. -/
def hotMx (db : DB) (now duration : Int) : ℚ :=
  (((hotCandidates db now duration).map
      (fun p => uniqueUsers (windowSubmissions db now duration p.id))).foldr max 0 : Nat)

/-- A problem row annotated with `unique_user_count`, `submission_volume`
and `ac_volume`, as `hot_problems` builds before filtering and ordering. -/
structure HotEntry where
  problem : Problem
  unique_user_count : Nat
  submission_volume : Nat
  ac_volume : Nat
deriving DecidableEq, Repr

/-- The three count annotations of one candidate problem. -/
def hotAnnotated (db : DB) (now duration : Int) (p : Problem) : HotEntry :=
  { problem := p
    unique_user_count := uniqueUsers (windowSubmissions db now duration p.id)
    submission_volume := caseSubmissionVolume (windowSubmissions db now duration p.id)
    ac_volume := caseAcVolume (windowSubmissions db now duration p.id) }

/-- The candidates surviving `filter(unique_user_count__gt=max(mx / 3.0, 1))`. -/
def hotEntries (db : DB) (now duration : Int) : List HotEntry :=
  ((hotCandidates db now duration).map (hotAnnotated db now duration)).filter
    (fun e => decide ((e.unique_user_count : ℚ) > max (hotMx db now duration / 3) 1))

/-- The `ordering` expression annotated onto each surviving row:
`0.02 * points * (0.4 * ac_volume / submission_volume + 0.6 * ac_rate)
 + 100 * e ** (unique_user_count / mx)`. -/
noncomputable def hotScore (mx : ℚ) (e : HotEntry) : ℝ :=
  0.02 * (e.problem.points : ℝ) *
      (0.4 * (e.ac_volume : ℝ) / (e.submission_volume : ℝ) +
        0.6 * (e.problem.ac_rate : ℝ)) +
    100 * Real.exp ((e.unique_user_count : ℝ) / ((mx : ℚ) : ℝ))

/-- Function `hot_problems(duration, limit)`: on a cache hit return the cached
sequence unchanged; on a miss, if no public problem has a submission in
the window return `[]` *without* writing the cache, otherwise annotate,
filter by the popularity floor, order by descending score, truncate to
`limit`, and cache the result.  The pair returned is (result, state of
the cache entry for this key after the call). -/
noncomputable def hot_problems (db : DB) (now duration : Int) (limit : Nat)
    (cache : Option (List HotEntry)) : List HotEntry × Option (List HotEntry) :=
  match cache with
  | some qs => (qs, some qs)
  | none =>
    if (hotCandidates db now duration).isEmpty then
      ([], none)
    else
      let mx := hotMx db now duration
      let result :=
        (List.insertionSort (fun a b => hotScore mx b ≤ hotScore mx a)
          (hotEntries db now duration)).take limit
      (result, some result)

/-! ### `get_related_problems` -/

/-- A `Profile` row: its id and the id of its account user. -/
structure Profile where
  id : Nat
  user : Nat
deriving DecidableEq, Repr

/-- The two distance metrics of the similarity model. -/
inductive CFMetric
  | DOT
  | COSINE
deriving DecidableEq, Repr

/-- Modelled from the spec: the external collaborative-filtering
similarity model (`judge/ml/collab_filter.py`, not part of this source
slice).  `problem_neighbors` takes the target problem id, a metric, the
candidate id collection and a limit, and returns an ordered sequence of
`(score, problem_id)` pairs of nearest neighbours drawn from the
candidates, capped at the limit. -/
structure CollabFilter where
  problem_neighbors : Nat → CFMetric → List Nat → Nat → List (ℚ × Nat)

/-- The spec-side soundness of a similarity model: every returned
neighbour id comes from the supplied candidate collection and each
metric's list is capped at the limit. -/
def CollabFilter.Sound (cf : CollabFilter) : Prop :=
  ∀ pid m cands lim,
    (∀ r ∈ cf.problem_neighbors pid m cands lim, r.2 ∈ cands) ∧
      (cf.problem_neighbors pid m cands lim).length ≤ lim

/-- Function `get_related_problems(profile, problem, limit)` (cache-miss
computation).  `visible` stands for `Problem.get_visible_problems
(profile.user)` (defined outside this slice), `shuffle` for
`random.Random(seed).shuffle` (a seeded permutation), `today` for the
`"%d%m%Y"`-formatted current date used as the seed, and `ml_output_path`
for `settings.ML_OUTPUT_PATH` (falsy iff empty).  The second component
counts the database/model queries issued.  The result is the final id
list (the source materialises one `Problem` row per id). -/
def get_related_problems (db : DB) (visible : List Problem) (cf : CollabFilter)
    (shuffle : String → List Nat → List Nat) (today : String)
    (ml_output_path : String) (profile : Option Profile) (problem : Problem)
    (limit : Nat) : Option (List Nat) × Nat :=
  match profile with
  | none => (none, 0)
  | some prof =>
    if ml_output_path = "" then
      (none, 0)
    else
      let problemset :=
        ((visible.map (fun p => p.id)).filter
            (fun i => !(user_completed_ids db prof.id).contains i)).filter
          (fun i => i ≠ problem.id)
      let results :=
        cf.problem_neighbors problem.id CFMetric.DOT problemset limit ++
          cf.problem_neighbors problem.id CFMetric.COSINE problemset limit
      let ids := (results.map (fun r => r.2)).dedup
      let shuffled := shuffle today ids
      (some (shuffled.take limit), 4 + (shuffled.take limit).length)

/-! ### Theorems about the result histogram -/

/-- Claim C3: for every submission collection, `get_result_data` succeeds
and the returned `total` equals the sum of the five per-category counts,
the `ERR` category's count equals the sum of the counts of the six
constituent verdicts `MLE, OLE, IR, RTE, AB, IE`, and no category count
is negative. -/
theorem get_result_data_total_err_nonneg (db : DB) (subs : List Submission) :
    ∃ d : ResultData,
      get_result_data db (some subs) [] = .ok d ∧
        d.total = (d.categories.map (fun c => c.count)).sum ∧
        (∃ c ∈ d.categories, c.code = "ERR") ∧
        (∀ c ∈ d.categories, c.code = "ERR" →
          c.count =
            resultCount subs .MLE + resultCount subs .OLE + resultCount subs .IR +
              resultCount subs .RTE + resultCount subs .AB + resultCount subs .IE) ∧
        ∀ c ∈ d.categories, 0 ≤ c.count := by
  refine ⟨_get_result_data (resultCount subs), rfl, ?_, ?_, ?_, ?_⟩
  · simp only [_get_result_data, allResults, List.map_cons, List.map_nil, List.sum_cons,
      List.sum_nil]
    omega
  · exact ⟨⟨"ERR", "Error",
      resultCount subs .MLE + resultCount subs .OLE + resultCount subs .IR +
        resultCount subs .RTE + resultCount subs .AB + resultCount subs .IE⟩,
      by simp [_get_result_data], rfl⟩
  · intro c hc hcode
    simp only [_get_result_data, List.mem_cons, List.not_mem_nil, or_false] at hc
    rcases hc with h | h | h | h | h <;> subst h <;> simp_all
  · intro c _
    exact Nat.zero_le _

/-- Claim C7: supplying both a positional submission collection and at
least one keyword filter makes `get_result_data` fail with an argument
error. -/
theorem get_result_data_both_error (db : DB) (subs : List Submission)
    (k : SubFilter) (ks : List SubFilter) :
    ∃ msg, get_result_data db (some subs) (k :: ks) = .error msg :=
  ⟨"Cannot pass both queryset and keyword filters", rfl⟩

/-- Claim C10: with no positional argument and no keyword filters,
`get_result_data` does not fail: the branch condition `kwargs is not None`
is constantly true, the empty filter set matches every submission, and
the result is the histogram over the whole `Submission` table. -/
theorem get_result_data_no_args (db : DB) :
    kwargs_is_not_none [] = true ∧
      get_result_data db none [] =
        .ok (_get_result_data (resultCount db.submissions)) := by
  refine ⟨rfl, ?_⟩
  simp [get_result_data, kwargs_is_not_none]

/-! ### Theorems about the recommender -/

/-- Claim C5: `get_related_problems` returns `None` whenever the profile
is falsy or `ML_OUTPUT_PATH` is unset, and on that path it issues zero
database and similarity-model queries. -/
theorem get_related_problems_guard (db : DB) (visible : List Problem)
    (cf : CollabFilter) (shuffle : String → List Nat → List Nat)
    (today ml_output_path : String) (profile : Option Profile)
    (problem : Problem) (limit : Nat)
    (h : profile = none ∨ ml_output_path = "") :
    get_related_problems db visible cf shuffle today ml_output_path profile
      problem limit = (none, 0) := by
  rcases h with h | h
  · subst h; rfl
  · cases profile with
    | none => rfl
    | some prof => subst h; simp [get_related_problems]

/-- Witness for C5 at a concrete input: a present profile but an empty
`ML_OUTPUT_PATH`. -/
theorem get_related_problems_guard_witness :
    ((some ⟨7, 7⟩ : Option Profile) = none ∨ ("" : String) = "") ∧
      get_related_problems ⟨[], []⟩ [] ⟨fun _ _ _ _ => []⟩ (fun _ l => l) "12102026"
        "" (some ⟨7, 7⟩) ⟨1, "a", "A", 100, 50, true⟩ 8 = (none, 0) :=
  ⟨Or.inr rfl,
    get_related_problems_guard ⟨[], []⟩ [] ⟨fun _ _ _ _ => []⟩ (fun _ l => l)
      "12102026" "" (some ⟨7, 7⟩) ⟨1, "a", "A", 100, 50, true⟩ 8 (Or.inr rfl)⟩

/-- Claim C6: for a sound similarity model (spec-modelled: neighbours are
drawn from the supplied candidates) and a permutation-valued shuffle, the
id list returned by `get_related_problems` never contains the target
problem, never contains a problem the profile already completed, and its
length never exceeds `limit`. -/
theorem get_related_problems_excludes (db : DB) (visible : List Problem)
    (cf : CollabFilter) (shuffle : String → List Nat → List Nat)
    (today ml_output_path : String) (prof : Profile) (problem : Problem)
    (limit : Nat) (out : List Nat)
    (hcf : cf.Sound) (hsh : ∀ s l, (shuffle s l).Perm l)
    (hout : (get_related_problems db visible cf shuffle today ml_output_path
        (some prof) problem limit).1 = some out) :
    problem.id ∉ out ∧ (∀ i ∈ out, i ∉ user_completed_ids db prof.id) ∧
      out.length ≤ limit := by
  by_cases hpath : ml_output_path = ""
  · subst hpath
    simp [get_related_problems] at hout
  · simp only [get_related_problems, if_neg hpath] at hout
    obtain rfl : _ = out := Option.some_injective _ hout
    have hmem : ∀ i ∈ (shuffle today
        (((cf.problem_neighbors problem.id CFMetric.DOT
            (((visible.map (fun p => p.id)).filter
                (fun i => !(user_completed_ids db prof.id).contains i)).filter
              (fun i => i ≠ problem.id)) limit ++
          cf.problem_neighbors problem.id CFMetric.COSINE
            (((visible.map (fun p => p.id)).filter
                (fun i => !(user_completed_ids db prof.id).contains i)).filter
              (fun i => i ≠ problem.id)) limit).map (fun r => r.2)).dedup)).take limit,
        i ≠ problem.id ∧ i ∉ user_completed_ids db prof.id := by
      intro i hi
      have hi1 := (hsh today _).mem_iff.mp (List.mem_of_mem_take hi)
      rw [List.mem_dedup, List.mem_map] at hi1
      obtain ⟨r, hr, rfl⟩ := hi1
      have hrped : r.2 ∈ ((visible.map (fun p => p.id)).filter
          (fun i => !(user_completed_ids db prof.id).contains i)).filter
            (fun i => i ≠ problem.id) := by
        rcases List.mem_append.mp hr with h | h
        · exact (hcf problem.id CFMetric.DOT _ limit).1 r h
        · exact (hcf problem.id CFMetric.COSINE _ limit).1 r h
      have h2 := List.mem_filter.mp hrped
      have h3 := List.mem_filter.mp h2.1
      refine ⟨by simpa using h2.2, ?_⟩
      have := h3.2
      simpa [List.contains_eq_any_beq, List.any_eq_true] using this
    refine ⟨fun hp => (hmem _ hp).1 rfl, fun i hi => (hmem i hi).2, ?_⟩
    calc (List.take limit _).length ≤ limit := by
          rw [List.length_take]; exact min_le_left _ _

/-- Witness for C6 at a concrete input: three visible problems, one
completed, a model returning the single remaining candidate under both
metrics, and the identity shuffle. -/
theorem get_related_problems_excludes_witness :
    (CollabFilter.Sound ⟨fun _ _ cands lim => (cands.take lim).map (fun i => (1, i))⟩ ∧
        ∀ s l, ((fun (_ : String) (l : List Nat) => l) s l).Perm l) ∧
      ((1 : Nat) ∉ [3] ∧
        (∀ i ∈ [3], i ∉ user_completed_ids
          ⟨[⟨1, "a", "A", 100, 50, true⟩, ⟨2, "b", "B", 50, 50, true⟩,
            ⟨3, "c", "C", 25, 50, true⟩],
           [⟨1, 7, 2, .AC, 50, 0⟩]⟩ 7) ∧
        ([3] : List Nat).length ≤ 8) := by
  have hcf : CollabFilter.Sound
      ⟨fun _ _ cands lim => (cands.take lim).map (fun i => (1, i))⟩ := by
    intro pid m cands lim
    constructor
    · intro r hr
      obtain ⟨i, hi, rfl⟩ := List.mem_map.mp hr
      exact List.mem_of_mem_take hi
    · simp only [List.length_map, List.length_take]
      exact min_le_left _ _
  have hsh : ∀ s l, ((fun (_ : String) (l : List Nat) => l) s l).Perm l :=
    fun _ _ => List.Perm.refl _
  refine ⟨⟨hcf, hsh⟩, ?_⟩
  exact get_related_problems_excludes
    ⟨[⟨1, "a", "A", 100, 50, true⟩, ⟨2, "b", "B", 50, 50, true⟩,
      ⟨3, "c", "C", 25, 50, true⟩],
     [⟨1, 7, 2, .AC, 50, 0⟩]⟩
    [⟨1, "a", "A", 100, 50, true⟩, ⟨2, "b", "B", 50, 50, true⟩,
      ⟨3, "c", "C", 25, 50, true⟩]
    ⟨fun _ _ cands lim => (cands.take lim).map (fun i => (1, i))⟩
    (fun _ l => l) "12102026" "model" ⟨7, 7⟩ ⟨1, "a", "A", 100, 50, true⟩ 8 [3]
    hcf hsh (by decide)

/-! ### Theorems about `user_completed_ids` -/

/-- The completion criterion exactly as the claim words it: some
submission by the profile achieved points equal to the problem's points
(an exact points match, with no requirement on the verdict). -/
def claimCompleted (db : DB) (profile pid : Nat) : Prop :=
  ∃ s ∈ db.submissions, s.user = profile ∧ s.problem = pid ∧
    ∃ p ∈ db.problems, p.id = pid ∧ s.points = p.points

/-- A database with a single problem worth 100 points and a single
submission by profile 7 that scored the full 100 points but was judged
Wrong Answer. -/
def dbFullPointsWA : DB :=
  { problems := [⟨1, "p1", "P1", 100, 50, true⟩]
    submissions := [⟨1, 7, 1, .WA, 100, 0⟩] }

/-- Counterexample to claim C1: in `dbFullPointsWA`, problem 1 satisfies
the claim's criterion (a submission by profile 7 with points equal to the
problem's points) yet `user_completed_ids` does not return it, because
the code additionally requires `result="AC"`. -/
theorem user_completed_ids_claim_false :
    claimCompleted dbFullPointsWA 7 1 ∧ 1 ∉ user_completed_ids dbFullPointsWA 7 := by
  constructor
  · exact ⟨⟨1, 7, 1, .WA, 100, 0⟩, by simp [dbFullPointsWA], rfl, rfl,
      ⟨1, "p1", "P1", 100, 50, true⟩, by simp [dbFullPointsWA], rfl, rfl⟩
  · decide

/-- Claim C1 as amended: provided problem ids are unique,
`user_completed_ids` returns exactly the problem ids for which some
*accepted* submission by the profile achieved points equal to the
problem's points. -/
theorem user_completed_ids_spec (db : DB) (profile pid : Nat)
    (hids : (db.problems.map (fun p => p.id)).Nodup) :
    pid ∈ user_completed_ids db profile ↔
      ∃ s ∈ db.submissions, s.user = profile ∧ s.result = .AC ∧ s.problem = pid ∧
        ∃ p ∈ db.problems, p.id = pid ∧ s.points = p.points := by
  unfold user_completed_ids
  rw [List.mem_dedup, List.mem_map]
  constructor
  · rintro ⟨s, hs, rfl⟩
    rw [List.mem_filter] at hs
    obtain ⟨hsmem, hcond⟩ := hs
    simp only [Bool.and_eq_true, beq_iff_eq] at hcond
    obtain ⟨⟨huser, hres⟩, hmatch⟩ := hcond
    refine ⟨s, hsmem, huser, hres, rfl, ?_⟩
    rcases hfind : db.findProblem s.problem with _ | p
    · rw [hfind] at hmatch; exact absurd hmatch (by simp)
    · rw [hfind] at hmatch
      have hp1 : p ∈ db.problems := List.mem_of_find?_eq_some hfind
      have hp2 : p.id = s.problem := by
        have := List.find?_some hfind
        simpa using this
      exact ⟨p, hp1, hp2, by simpa using hmatch⟩
  · rintro ⟨s, hsmem, huser, hres, rfl, p, hpmem, hpid, hpts⟩
    refine ⟨s, ?_, rfl⟩
    rw [List.mem_filter]
    refine ⟨hsmem, ?_⟩
    simp only [Bool.and_eq_true, beq_iff_eq]
    refine ⟨⟨huser, hres⟩, ?_⟩
    have hsome : (db.findProblem s.problem).isSome := by
      rw [DB.findProblem, List.find?_isSome]
      exact ⟨p, hpmem, by simpa using hpid⟩
    rcases hfind : db.findProblem s.problem with _ | q
    · rw [hfind] at hsome; exact absurd hsome (by simp)
    · have hq1 : q ∈ db.problems := List.mem_of_find?_eq_some hfind
      have hq2 : q.id = s.problem := by
        have := List.find?_some hfind
        simpa using this
      have : p = q := List.inj_on_of_nodup_map hids hpmem hq1 (hpid.trans hq2.symm)
      subst this
      simpa using hpts

/-- Witness for C1 (amended) at a concrete input: a database with unique
problem ids in which an accepted full-score submission exists. -/
theorem user_completed_ids_spec_witness :
    ((DB.problems ⟨[⟨1, "p1", "P1", 100, 50, true⟩],
        [⟨1, 7, 1, .AC, 100, 0⟩]⟩).map (fun p => p.id)).Nodup ∧
      (1 ∈ user_completed_ids ⟨[⟨1, "p1", "P1", 100, 50, true⟩],
          [⟨1, 7, 1, .AC, 100, 0⟩]⟩ 7 ↔
        ∃ s ∈ (DB.submissions ⟨[⟨1, "p1", "P1", 100, 50, true⟩],
            [⟨1, 7, 1, .AC, 100, 0⟩]⟩),
          s.user = 7 ∧ s.result = .AC ∧ s.problem = 1 ∧
            ∃ p ∈ (DB.problems ⟨[⟨1, "p1", "P1", 100, 50, true⟩],
                [⟨1, 7, 1, .AC, 100, 0⟩]⟩), p.id = 1 ∧ s.points = p.points) :=
  ⟨by decide,
    user_completed_ids_spec ⟨[⟨1, "p1", "P1", 100, 50, true⟩],
      [⟨1, 7, 1, .AC, 100, 0⟩]⟩ 7 1 (by decide)⟩

/-- Every member of a list is bounded by `maxPoints` (the `Max("points")`
aggregate of a group). -/
theorem le_maxPoints {l : List ℚ} {x m : ℚ} (hx : x ∈ l)
    (hm : maxPoints l = some m) : x ≤ m := by
  induction l generalizing m with
  | nil => cases hx
  | cons a t ih =>
    rw [maxPoints] at hm
    obtain rfl : _ = m := Option.some_injective _ hm
    rcases List.mem_cons.mp hx with rfl | hxt
    · cases ht : maxPoints t with
      | none => simp [ht]
      | some m' => simp [ht]
    · cases ht : maxPoints t with
      | none =>
        cases t with
        | nil => cases hxt
        | cons b u => rw [maxPoints] at ht; cases ht
      | some m' =>
        have := ih hxt ht
        simp only [ht]
        exact le_max_of_le_right this

/-- Claim C9: the set returned by `user_completed_ids` is disjoint from
the key set of `user_attempted_ids`: a problem whose best points by the
profile are strictly below its maximum cannot also have an accepted
full-score submission by the profile. -/
theorem completed_attempted_disjoint (db : DB) (profile pid : Nat)
    (h : pid ∈ user_completed_ids db profile) :
    pid ∉ (user_attempted_ids db profile).map Prod.fst := by
  intro hatt
  -- unpack the completed membership: an AC submission at full points
  unfold user_completed_ids at h
  rw [List.mem_dedup, List.mem_map] at h
  obtain ⟨s, hs, rfl⟩ := h
  rw [List.mem_filter] at hs
  obtain ⟨hsmem, hcond⟩ := hs
  simp only [Bool.and_eq_true, beq_iff_eq] at hcond
  obtain ⟨⟨huser, _⟩, hmatch⟩ := hcond
  rcases hfind : db.findProblem s.problem with _ | p
  · rw [hfind] at hmatch; exact absurd hmatch (by simp)
  rw [hfind] at hmatch
  have hspts : s.points = p.points := by simpa using hmatch
  -- unpack the attempted membership: the group's best points are below max
  rw [List.mem_map] at hatt
  obtain ⟨⟨pid', rec⟩, hrec, hfst⟩ := hatt
  simp only at hfst
  subst hfst
  unfold user_attempted_ids at hrec
  rw [List.mem_filterMap] at hrec
  obtain ⟨pid'', hpid'', hres⟩ := hrec
  rcases hfind' : db.findProblem pid'' with _ | p'
  · rw [hfind'] at hres; cases hres
  rw [hfind'] at hres
  dsimp only [] at hres
  rcases hmaxp : maxPoints (((db.submissions.filter (fun s => s.user == profile)).filter
      (fun s => s.problem == pid'')).map (fun s => s.points)) with _ | m
  · rw [hmaxp] at hres
    rcases hmaxi : maxId (((db.submissions.filter (fun s => s.user == profile)).filter
        (fun s => s.problem == pid'')).map (fun s => s.id)) with _ | last <;>
      rw [hmaxi] at hres <;> cases hres
  rw [hmaxp] at hres
  rcases hmaxi : maxId (((db.submissions.filter (fun s => s.user == profile)).filter
      (fun s => s.problem == pid'')).map (fun s => s.id)) with _ | last
  · rw [hmaxi] at hres; cases hres
  rw [hmaxi] at hres
  dsimp only [] at hres
  by_cases hlt : m < p'.points
  · rw [if_pos hlt] at hres
    obtain ⟨rfl, -⟩ : pid'' = s.problem ∧ _ :=
      Prod.mk.injEq .. ▸ Option.some_injective _ hres
    -- the two joins resolve the same problem row
    rw [hfind] at hfind'
    obtain rfl : p = p' := Option.some_injective _ hfind'
    -- the completed submission is in the attempted group
    have hsg : s.points ∈ (((db.submissions.filter (fun s => s.user == profile)).filter
        (fun t => t.problem == s.problem)).map (fun s => s.points)) := by
      refine List.mem_map.mpr ⟨s, ?_, rfl⟩
      rw [List.mem_filter, List.mem_filter]
      exact ⟨⟨hsmem, by simpa using huser⟩, by simp⟩
    have hle : s.points ≤ m := le_maxPoints hsg hmaxp
    rw [hspts] at hle
    exact absurd (lt_of_le_of_lt hle hlt) (lt_irrefl _)
  · rw [if_neg hlt] at hres
    cases hres

/-- Witness for C9 at a concrete input: profile 7 completed problem 1, so
problem 1 is not among the attempted keys. -/
theorem completed_attempted_disjoint_witness :
    1 ∈ user_completed_ids ⟨[⟨1, "p1", "P1", 100, 50, true⟩],
        [⟨1, 7, 1, .AC, 100, 0⟩, ⟨2, 7, 1, .WA, 30, 1⟩]⟩ 7 ∧
      1 ∉ (user_attempted_ids ⟨[⟨1, "p1", "P1", 100, 50, true⟩],
        [⟨1, 7, 1, .AC, 100, 0⟩, ⟨2, 7, 1, .WA, 30, 1⟩]⟩ 7).map Prod.fst :=
  ⟨by decide,
    completed_attempted_disjoint ⟨[⟨1, "p1", "P1", 100, 50, true⟩],
      [⟨1, 7, 1, .AC, 100, 0⟩, ⟨2, 7, 1, .WA, 30, 1⟩]⟩ 7 1 (by decide)⟩

/-! ### Theorems about `hot_problems` -/

/-- Claim C8: when no publicly visible problem has any submission inside
the trailing window, `hot_problems` returns the empty sequence and leaves
the cache entry for its key absent. -/
theorem hot_problems_no_candidates (db : DB) (now duration : Int) (limit : Nat)
    (h : ∀ p ∈ db.problems, p.is_public = true →
      windowSubmissions db now duration p.id = []) :
    hot_problems db now duration limit none = ([], none) := by
  have hc : hotCandidates db now duration = [] := by
    rw [hotCandidates, List.filter_eq_nil_iff]
    intro p hp hcond
    simp only [Bool.and_eq_true, Bool.not_eq_true'] at hcond
    rw [h p hp hcond.1] at hcond
    exact absurd hcond.2 (by simp)
  simp [hot_problems, hc]

/-- Witness for C8 at a concrete input: a database whose only problem is
private, with a submission inside the window. -/
theorem hot_problems_no_candidates_witness :
    (∀ p ∈ (DB.problems ⟨[⟨1, "a", "A", 100, 50, false⟩], [⟨1, 10, 1, .AC, 100, 5⟩]⟩),
        p.is_public = true →
          windowSubmissions ⟨[⟨1, "a", "A", 100, 50, false⟩],
            [⟨1, 10, 1, .AC, 100, 5⟩]⟩ 10 20 p.id = []) ∧
      hot_problems ⟨[⟨1, "a", "A", 100, 50, false⟩],
        [⟨1, 10, 1, .AC, 100, 5⟩]⟩ 10 20 5 none = ([], none) :=
  ⟨by decide,
    hot_problems_no_candidates ⟨[⟨1, "a", "A", 100, 50, false⟩],
      [⟨1, 10, 1, .AC, 100, 5⟩]⟩ 10 20 5 (by decide)⟩

/-- Claim C2 as amended: every problem returned by `hot_problems` has
`unique_user_count` strictly above the popularity floor
`max(mx/3, 1)`, the sequence is ordered by *nonincreasing* score (ties
are possible, so the order is descending but not strictly), and its
length never exceeds `limit`. -/
theorem hot_problems_floor_order_limit (db : DB) (now duration : Int) (limit : Nat) :
    (∀ e ∈ (hot_problems db now duration limit none).1,
        (e.unique_user_count : ℚ) > max (hotMx db now duration / 3) 1) ∧
      List.Pairwise (fun a b =>
          hotScore (hotMx db now duration) b ≤ hotScore (hotMx db now duration) a)
        (hot_problems db now duration limit none).1 ∧
      (hot_problems db now duration limit none).1.length ≤ limit := by
  by_cases hc : (hotCandidates db now duration).isEmpty
  · simp [hot_problems, hc]
  · have hres : (hot_problems db now duration limit none).1 =
        (List.insertionSort (fun a b =>
            hotScore (hotMx db now duration) b ≤ hotScore (hotMx db now duration) a)
          (hotEntries db now duration)).take limit := by
      simp [hot_problems, hc]
    rw [hres]
    refine ⟨?_, ?_, ?_⟩
    · intro e he
      have h1 := List.mem_of_mem_take he
      rw [List.mem_insertionSort] at h1
      have h2 := (List.mem_filter.mp h1).2
      simpa using h2
    · letI : IsTotal HotEntry (fun a b =>
          hotScore (hotMx db now duration) b ≤ hotScore (hotMx db now duration) a) :=
        ⟨fun a b => le_total _ _⟩
      letI : IsTrans HotEntry (fun a b =>
          hotScore (hotMx db now duration) b ≤ hotScore (hotMx db now duration) a) :=
        ⟨fun _ _ _ hab hbc => le_trans hbc hab⟩
      exact List.Pairwise.sublist (List.take_sublist _ _)
        (List.sorted_insertionSort _ _)
    · rw [List.length_take]
      exact min_le_left _ _

/-- A database with two identical public problems (same points, same
acceptance rate) each solved by the same two users inside the window:
their hotness scores tie exactly. -/
def dbTied : DB :=
  { problems := [⟨1, "a", "A", 100, 50, true⟩, ⟨2, "b", "B", 100, 50, true⟩]
    submissions :=
      [⟨1, 10, 1, .AC, 100, 5⟩, ⟨2, 11, 1, .AC, 100, 5⟩,
       ⟨3, 10, 2, .AC, 100, 5⟩, ⟨4, 11, 2, .AC, 100, 5⟩] }

/-- Counterexample to claim C2: on `dbTied` both returned problems have
equal scores, so the returned sequence is not *strictly* descending by
score. -/
theorem hot_problems_not_strictly_descending :
    ¬ List.Pairwise (fun a b =>
        hotScore (hotMx dbTied 10 20) b < hotScore (hotMx dbTied 10 20) a)
      (hot_problems dbTied 10 20 2 none).1 := by
  intro hpair
  have hc : (hotCandidates dbTied 10 20).isEmpty = false := by decide
  have hres : (hot_problems dbTied 10 20 2 none).1 =
      (List.insertionSort (fun a b =>
          hotScore (hotMx dbTied 10 20) b ≤ hotScore (hotMx dbTied 10 20) a)
        (hotEntries dbTied 10 20)).take 2 := by
    simp [hot_problems, hc]
  have hmap : (hotCandidates dbTied 10 20).map (hotAnnotated dbTied 10 20) =
      [⟨⟨1, "a", "A", 100, 50, true⟩, 2, 2, 2⟩,
       ⟨⟨2, "b", "B", 100, 50, true⟩, 2, 2, 2⟩] := by decide
  have hmx : hotMx dbTied 10 20 = 2 := by decide
  have hcond : ∀ e : HotEntry, e.unique_user_count = 2 →
      decide ((e.unique_user_count : ℚ) > max (hotMx dbTied 10 20 / 3) 1) = true := by
    intro e he
    rw [he, hmx]
    simp only [decide_eq_true_eq, gt_iff_lt, max_lt_iff]
    norm_num
  have hent : hotEntries dbTied 10 20 =
      [⟨⟨1, "a", "A", 100, 50, true⟩, 2, 2, 2⟩,
       ⟨⟨2, "b", "B", 100, 50, true⟩, 2, 2, 2⟩] := by
    rw [hotEntries, hmap]
    refine List.filter_eq_self.mpr ?_
    intro e he
    rcases List.mem_cons.mp he with rfl | he
    · exact hcond _ rfl
    · rcases List.mem_cons.mp he with rfl | he
      · exact hcond _ rfl
      · cases he
  rw [hres, hent] at hpair
  have htake : (List.insertionSort (fun a b =>
      hotScore (hotMx dbTied 10 20) b ≤ hotScore (hotMx dbTied 10 20) a)
        [(⟨⟨1, "a", "A", 100, 50, true⟩, 2, 2, 2⟩ : HotEntry),
         ⟨⟨2, "b", "B", 100, 50, true⟩, 2, 2, 2⟩]).take 2 =
      List.insertionSort (fun a b =>
        hotScore (hotMx dbTied 10 20) b ≤ hotScore (hotMx dbTied 10 20) a)
        [(⟨⟨1, "a", "A", 100, 50, true⟩, 2, 2, 2⟩ : HotEntry),
         ⟨⟨2, "b", "B", 100, 50, true⟩, 2, 2, 2⟩] :=
    List.take_of_length_le (by rw [List.length_insertionSort]; exact Nat.le_refl 2)
  have hperm : ((List.insertionSort (fun a b =>
      hotScore (hotMx dbTied 10 20) b ≤ hotScore (hotMx dbTied 10 20) a)
        [(⟨⟨1, "a", "A", 100, 50, true⟩, 2, 2, 2⟩ : HotEntry),
         ⟨⟨2, "b", "B", 100, 50, true⟩, 2, 2, 2⟩]).take 2).Perm
      [(⟨⟨1, "a", "A", 100, 50, true⟩, 2, 2, 2⟩ : HotEntry),
       ⟨⟨2, "b", "B", 100, 50, true⟩, 2, 2, 2⟩] := by
    rw [htake]
    exact List.perm_insertionSort _ _
  obtain ⟨a, b, hab⟩ := List.length_eq_two.mp hperm.length_eq
  rw [hab] at hpair hperm
  have hrel : hotScore (hotMx dbTied 10 20) b < hotScore (hotMx dbTied 10 20) a :=
    (List.pairwise_cons.mp hpair).1 b (List.mem_cons_self _ _)
  have hsc : ∀ x ∈ [(⟨⟨1, "a", "A", 100, 50, true⟩, 2, 2, 2⟩ : HotEntry),
      ⟨⟨2, "b", "B", 100, 50, true⟩, 2, 2, 2⟩],
      hotScore (hotMx dbTied 10 20) x =
        hotScore (hotMx dbTied 10 20) (⟨⟨1, "a", "A", 100, 50, true⟩, 2, 2, 2⟩ : HotEntry) := by
    intro x hx
    rcases List.mem_cons.mp hx with rfl | hx
    · rfl
    · rcases List.mem_cons.mp hx with rfl | hx
      · rfl
      · cases hx
  have ha := hsc a (hperm.subset (List.mem_cons_self _ _))
  have hb := hsc b (hperm.subset (List.mem_cons_of_mem _ (List.mem_cons_self _ _)))
  rw [ha, hb] at hrel
  exact absurd hrel (lt_irrefl _)

/-- Claim C4: every candidate problem's `submission_volume` counts
exactly the window submissions whose verdict lies in
`{AC, WA, IR, RTE, TLE, OLE}` (CE excluded) and `ac_volume` counts the
accepted ones; every returned entry is the annotation of a candidate;
and every returned entry's score equals
`0.02 * points * (0.4 * ac_volume / submission_volume + 0.6 * ac_rate)
 + 100 * e ^ (unique_user_count / mx)`. -/
theorem hot_problems_volumes_score (db : DB) (now duration : Int) (limit : Nat) :
    (∀ p ∈ hotCandidates db now duration,
        (hotAnnotated db now duration p).submission_volume =
            (windowSubmissions db now duration p.id).countP
              (fun s => decide (s.result ∈
                ([.AC, .WA, .IR, .RTE, .TLE, .OLE] : List SubResult))) ∧
          (hotAnnotated db now duration p).ac_volume =
            (windowSubmissions db now duration p.id).countP
              (fun s => decide (s.result = .AC))) ∧
      (∀ e ∈ (hot_problems db now duration limit none).1,
        ∃ p ∈ hotCandidates db now duration, e = hotAnnotated db now duration p) ∧
      ∀ e ∈ (hot_problems db now duration limit none).1,
        hotScore (hotMx db now duration) e =
          0.02 * (e.problem.points : ℝ) *
              (0.4 * (e.ac_volume : ℝ) / (e.submission_volume : ℝ) +
                0.6 * (e.problem.ac_rate : ℝ)) +
            100 * Real.exp ((e.unique_user_count : ℝ) /
              ((hotMx db now duration : ℚ) : ℝ)) := by
  refine ⟨?_, ?_, fun e _ => rfl⟩
  · intro p _
    constructor
    · simp only [hotAnnotated, caseSubmissionVolume]
      exact List.countP_congr (fun s _ => by cases s.result <;> decide)
    · simp only [hotAnnotated, caseAcVolume]
      exact List.countP_congr (fun s _ => by cases s.result <;> decide)
  · intro e he
    by_cases hc : (hotCandidates db now duration).isEmpty
    · rw [show (hot_problems db now duration limit none).1 = [] by
        simp [hot_problems, hc]] at he
      cases he
    · have hres : (hot_problems db now duration limit none).1 =
          (List.insertionSort (fun a b =>
              hotScore (hotMx db now duration) b ≤ hotScore (hotMx db now duration) a)
            (hotEntries db now duration)).take limit := by
        simp [hot_problems, hc]
      rw [hres] at he
      have h1 := List.mem_of_mem_take he
      rw [List.mem_insertionSort] at h1
      have h2 := (List.mem_filter.mp h1).1
      obtain ⟨p, hp, rfl⟩ := List.mem_map.mp h2
      exact ⟨p, hp, rfl⟩

end OnlineJudge
